import Mathlib

/-!
# Fixed-priority periodic dispatcher (`src/main.cpp`)

A shallow embedding of the task table, of `setup()` and of `scheduler()`,
followed by the properties of one scheduling pass and of sequences of passes.

Machine integers are natural numbers; the `unsigned long` subtraction of the
due test is taken modulo `2 ^ 32`, the width of `unsigned long` on the AVR
target.  `int nextTask` keeps its `-1` sentinel as an `Int`.
-/

namespace RTOS

/-- The `#define MAX_TASKS 3` of the source: the size of the task table. -/
def MAX_TASKS : Nat := 3

/-- The number of values of an `unsigned long` (32 bits on the AVR target). -/
def ULONG_MOD : Nat := 2 ^ 32

/-- The three task bodies a `taskFunc` pointer can refer to. -/
inductive TaskFunc where
  | taskUltrasonicLED
  | taskDHT11
  | taskBlinkLED
deriving DecidableEq, Repr

/-- Task Control Block (`typedef struct { ... } TCB`). -/
structure TCB where
  taskFunc : TaskFunc
  period : Nat
  lastRun : Nat
  priority : Nat
  ready : Bool
  name : String
deriving DecidableEq, Repr

/-- What a pass makes observable outside the table: the pieces written to the
serial port, in order, and the call through a task's function pointer. -/
inductive Event where
  | printStr (s : String)
  | printNum (n : Nat)
  | printlnStr (s : String)
  | call (f : TaskFunc)
deriving DecidableEq, Repr

/-- The file-scope state `scheduler()` reads and writes: `tasks`, `currentTask`,
and the sequence of serial writes and task calls made so far. -/
structure Sys where
  tasks : List TCB
  currentTask : Int
  trace : List Event
deriving DecidableEq, Repr

/-- Subtraction of two `unsigned long` values: `a - b` modulo `2 ^ 32`. -/
def sub32 (a b : Nat) : Nat :=
  (a % ULONG_MOD + (ULONG_MOD - b % ULONG_MOD)) % ULONG_MOD

/-- The period test of line 87: `now - tasks[i].lastRun >= tasks[i].period`,
with the subtraction in `unsigned long`. -/
def elapsed (now : Nat) (t : TCB) : Bool :=
  decide (sub32 now t.lastRun ≥ t.period)

/-- The condition of line 87:
`tasks[i].ready && (now - tasks[i].lastRun >= tasks[i].period)`. -/
def isDue (now : Nat) (t : TCB) : Bool :=
  t.ready && elapsed now t

/-- The two locals of the selection loop: `nextTask` and `highestPriority`. -/
structure Scan where
  nextTask : Int
  highestPriority : Nat
deriving DecidableEq, Repr

/-- One iteration of the loop of lines 85-94, for index `i`. The table of the
source has `MAX_TASKS` entries, so the loop never leaves it; an index outside
the list is skipped. -/
def scanStep (tasks : List TCB) (now : Nat) (sc : Scan) (i : Nat) : Scan :=
  match tasks[i]? with
  | none => sc
  | some t =>
    if isDue now t then
      if t.priority < sc.highestPriority then
        { nextTask := (i : Int), highestPriority := t.priority }
      else sc
    else sc

/-- The loop `for (int i = 0; i < n; i++)` started from
`nextTask = -1`, `highestPriority = 255`. -/
def scanUpTo (tasks : List TCB) (now : Nat) (n : Nat) : Scan :=
  (List.range n).foldl (scanStep tasks now) { nextTask := -1, highestPriority := 255 }

/-- The selection loop of `scheduler()` (lines 81-94). -/
def scan (tasks : List TCB) (now : Nat) : Scan :=
  scanUpTo tasks now MAX_TASKS

/-- The assignment `tasks[j].lastRun = now`. -/
def setLastRun : List TCB → Nat → Nat → List TCB
  | [], _, _ => []
  | t :: ts, 0, now => { t with lastRun := now } :: ts
  | t :: ts, j + 1, now => t :: setLastRun ts j now

/-- The four serial writes of lines 104-107 for task `j`, an index of the table. -/
def announce (s : Sys) (now : Nat) (j : Nat) : Sys :=
  match s.tasks[j]? with
  | none => s
  | some t =>
    { s with trace := s.trace ++
        [Event.printStr "[", Event.printNum now, Event.printStr "ms] Running: ",
         Event.printlnStr t.name] }

/-- The call `tasks[j].taskFunc()` of line 109. The task bodies of the source
touch neither `tasks` nor `currentTask`; the call is recorded in the trace. -/
def callTask (s : Sys) (j : Nat) : Sys :=
  match s.tasks[j]? with
  | none => s
  | some t => { s with trace := s.trace ++ [Event.call t.taskFunc] }

/-- The state reached just before line 109: `currentTask` assigned, `lastRun`
stamped, the diagnostic line written, the task not yet called. -/
def prepare (s : Sys) (now : Nat) (nextTask : Int) : Sys :=
  let s1 : Sys := { s with currentTask := nextTask }
  let s2 : Sys := { s1 with tasks := setLastRun s1.tasks nextTask.toNat now }
  announce s2 now nextTask.toNat

/-- One pass of `scheduler()` with `millis()` returning `now`. -/
def scheduler (s : Sys) (now : Nat) : Sys :=
  let sc := scan s.tasks now
  if sc.nextTask ≠ -1 then
    callTask (prepare s now sc.nextTask) sc.nextTask.toNat
  else s

/-- The task table written by `setup()` (lines 134-157). -/
def setupTasks : List TCB :=
  [ { taskFunc := TaskFunc.taskUltrasonicLED, period := 200, lastRun := 0,
      priority := 0, ready := true, name := "Ultrasonic+LED" },
    { taskFunc := TaskFunc.taskDHT11, period := 2000, lastRun := 0,
      priority := 1, ready := true, name := "DHT11" },
    { taskFunc := TaskFunc.taskBlinkLED, period := 1000, lastRun := 0,
      priority := 2, ready := true, name := "BlinkLED" } ]

/-- The scheduler state after `setup()`: the table above, `currentTask = 0`,
nothing dispatched yet. -/
def setupSys : Sys :=
  { tasks := setupTasks, currentTask := 0, trace := [] }

/-- A sequence of passes, one for each reading of `millis()` in `nows`. -/
def runPasses (s : Sys) (nows : List Nat) : Sys :=
  nows.foldl scheduler s

/-- Task `i` of the table is a candidate at `now`: it is ready and its period
has elapsed. -/
def isCandidate (tasks : List TCB) (now : Nat) (i : Nat) : Bool :=
  match tasks[i]? with
  | none => false
  | some t => isDue now t

/-- Task `i` is selected in none of the passes made from `s` at the times
`nows`. -/
def notSelectedDuring (i : Nat) : Sys → List Nat → Prop
  | _, [] => True
  | s, now :: rest =>
    (scan s.tasks now).nextTask ≠ (i : Int) ∧ notSelectedDuring i (scheduler s now) rest

/-- The task bodies called in a trace, in order. -/
def callsOf : List Event → List TaskFunc
  | [] => []
  | Event.call f :: es => f :: callsOf es
  | _ :: es => callsOf es

/-- The diagnostic line and the call that a pass selecting `t` at `now` adds
to the trace. -/
def dispatchEvents (now : Nat) (t : TCB) : List Event :=
  [Event.printStr "[", Event.printNum now, Event.printStr "ms] Running: ",
   Event.printlnStr t.name, Event.call t.taskFunc]

/-- Scenario table: A (period 200, priority 0) last ran at 200, B (period 2000,
priority 1) and C (period 1000, priority 2) have never run. -/
def scenarioAC : List TCB :=
  [ { taskFunc := TaskFunc.taskUltrasonicLED, period := 200, lastRun := 200,
      priority := 0, ready := true, name := "Ultrasonic+LED" },
    { taskFunc := TaskFunc.taskDHT11, period := 2000, lastRun := 0,
      priority := 1, ready := true, name := "DHT11" },
    { taskFunc := TaskFunc.taskBlinkLED, period := 1000, lastRun := 0,
      priority := 2, ready := true, name := "BlinkLED" } ]

/-- Scenario table: the table of `setup()` with task A disabled. -/
def scenarioDisabledA : List TCB :=
  [ { taskFunc := TaskFunc.taskUltrasonicLED, period := 200, lastRun := 0,
      priority := 0, ready := false, name := "Ultrasonic+LED" },
    { taskFunc := TaskFunc.taskDHT11, period := 2000, lastRun := 0,
      priority := 1, ready := true, name := "DHT11" },
    { taskFunc := TaskFunc.taskBlinkLED, period := 1000, lastRun := 0,
      priority := 2, ready := true, name := "BlinkLED" } ]

/-- Scenario table: B and C share priority 1, A has priority 5; all never run. -/
def scenarioTie : List TCB :=
  [ { taskFunc := TaskFunc.taskUltrasonicLED, period := 200, lastRun := 0,
      priority := 5, ready := true, name := "Ultrasonic+LED" },
    { taskFunc := TaskFunc.taskDHT11, period := 2000, lastRun := 0,
      priority := 1, ready := true, name := "DHT11" },
    { taskFunc := TaskFunc.taskBlinkLED, period := 1000, lastRun := 0,
      priority := 1, ready := true, name := "BlinkLED" } ]

/-- Scenario table: the table of `setup()` with the priority of task A set to
255, the largest value of the `uint8_t` field. -/
def scenarioPrio255 : List TCB :=
  [ { taskFunc := TaskFunc.taskUltrasonicLED, period := 200, lastRun := 0,
      priority := 255, ready := true, name := "Ultrasonic+LED" },
    { taskFunc := TaskFunc.taskDHT11, period := 2000, lastRun := 0,
      priority := 1, ready := true, name := "DHT11" },
    { taskFunc := TaskFunc.taskBlinkLED, period := 1000, lastRun := 0,
      priority := 2, ready := true, name := "BlinkLED" } ]

/-- Scenario table: a task stamped 100 ms before the millisecond counter wraps. -/
def scenarioWrap : TCB :=
  { taskFunc := TaskFunc.taskUltrasonicLED, period := 200, lastRun := 4294967196,
    priority := 0, ready := true, name := "Ultrasonic+LED" }

/-! ## The selection loop -/

/-- What the loop has established after looking at the first `n` entries. -/
def ScanInv (tasks : List TCB) (now : Nat) (n : Nat) (sc : Scan) : Prop :=
  (sc.nextTask = -1 ∧ sc.highestPriority = 255 ∧
      ∀ i t, i < n → tasks[i]? = some t → isDue now t = true → 255 ≤ t.priority) ∨
  (∃ j t, j < n ∧ sc.nextTask = (j : Int) ∧ tasks[j]? = some t ∧ isDue now t = true ∧
      sc.highestPriority = t.priority ∧ t.priority < 255 ∧
      (∀ i u, i < n → tasks[i]? = some u → isDue now u = true → t.priority ≤ u.priority) ∧
      (∀ i u, i < j → tasks[i]? = some u → isDue now u = true → t.priority < u.priority))

theorem scanUpTo_succ (tasks : List TCB) (now n : Nat) :
    scanUpTo tasks now (n + 1) = scanStep tasks now (scanUpTo tasks now n) n := by
  simp [scanUpTo, List.range_succ, List.foldl_append]

theorem scanInv_step (tasks : List TCB) (now n : Nat) (sc : Scan)
    (h : ScanInv tasks now n sc) : ScanInv tasks now (n + 1) (scanStep tasks now sc n) := by
  unfold scanStep
  cases hn : tasks[n]? with
  | none =>
    simp only
    rcases h with ⟨h1, h2, h3⟩ | ⟨j, t, hj, h1, h2, h3, h4, h5, h6, h7⟩
    · refine Or.inl ⟨h1, h2, ?_⟩
      intro i t hi hit hd
      rcases Nat.lt_succ_iff_lt_or_eq.mp hi with hlt | heq
      · exact h3 i t hlt hit hd
      · subst heq; rw [hn] at hit; cases hit
    · refine Or.inr ⟨j, t, Nat.lt_succ_of_lt hj, h1, h2, h3, h4, h5, ?_, h7⟩
      intro i u hi hiu hd
      rcases Nat.lt_succ_iff_lt_or_eq.mp hi with hlt | heq
      · exact h6 i u hlt hiu hd
      · subst heq; rw [hn] at hiu; cases hiu
  | some c =>
    simp only
    by_cases hdue : isDue now c = true
    · rw [if_pos hdue]
      by_cases hlt : c.priority < sc.highestPriority
      · rw [if_pos hlt]
        rcases h with ⟨h1, h2, h3⟩ | ⟨j, t, hj, h1, h2, h3, h4, h5, h6, h7⟩
        · refine Or.inr ⟨n, c, Nat.lt_succ_self n, rfl, hn, hdue, rfl, ?_, ?_, ?_⟩
          · rw [h2] at hlt; exact hlt
          · intro i u hi hiu hd
            rcases Nat.lt_succ_iff_lt_or_eq.mp hi with hl | heq
            · have := h3 i u hl hiu hd
              rw [h2] at hlt; omega
            · subst heq; rw [hn] at hiu; cases hiu; exact Nat.le_refl _
          · intro i u hi hiu hd
            have := h3 i u hi hiu hd
            rw [h2] at hlt; omega
        · refine Or.inr ⟨n, c, Nat.lt_succ_self n, rfl, hn, hdue, rfl, ?_, ?_, ?_⟩
          · rw [h4] at hlt; omega
          · intro i u hi hiu hd
            rcases Nat.lt_succ_iff_lt_or_eq.mp hi with hl | heq
            · have := h6 i u hl hiu hd
              rw [h4] at hlt; omega
            · subst heq; rw [hn] at hiu; cases hiu; exact Nat.le_refl _
          · intro i u hi hiu hd
            have := h6 i u hi hiu hd
            rw [h4] at hlt; omega
      · rw [if_neg hlt]
        rcases h with ⟨h1, h2, h3⟩ | ⟨j, t, hj, h1, h2, h3, h4, h5, h6, h7⟩
        · refine Or.inl ⟨h1, h2, ?_⟩
          intro i u hi hiu hd
          rcases Nat.lt_succ_iff_lt_or_eq.mp hi with hl | heq
          · exact h3 i u hl hiu hd
          · subst heq; rw [hn] at hiu; cases hiu; rw [h2] at hlt; omega
        · refine Or.inr ⟨j, t, Nat.lt_succ_of_lt hj, h1, h2, h3, h4, h5, ?_, h7⟩
          intro i u hi hiu hd
          rcases Nat.lt_succ_iff_lt_or_eq.mp hi with hl | heq
          · exact h6 i u hl hiu hd
          · subst heq; rw [hn] at hiu; cases hiu; rw [h4] at hlt; omega
    · rw [if_neg hdue]
      rcases h with ⟨h1, h2, h3⟩ | ⟨j, t, hj, h1, h2, h3, h4, h5, h6, h7⟩
      · refine Or.inl ⟨h1, h2, ?_⟩
        intro i u hi hiu hd
        rcases Nat.lt_succ_iff_lt_or_eq.mp hi with hl | heq
        · exact h3 i u hl hiu hd
        · subst heq; rw [hn] at hiu; cases hiu; exact absurd hd hdue
      · refine Or.inr ⟨j, t, Nat.lt_succ_of_lt hj, h1, h2, h3, h4, h5, ?_, h7⟩
        intro i u hi hiu hd
        rcases Nat.lt_succ_iff_lt_or_eq.mp hi with hl | heq
        · exact h6 i u hl hiu hd
        · subst heq; rw [hn] at hiu; cases hiu; exact absurd hd hdue

theorem scanInv_scanUpTo (tasks : List TCB) (now n : Nat) :
    ScanInv tasks now n (scanUpTo tasks now n) := by
  induction n with
  | zero =>
    refine Or.inl ⟨rfl, rfl, ?_⟩
    intro i t hi
    exact absurd hi (Nat.not_lt_zero i)
  | succ n ih =>
    rw [scanUpTo_succ]
    exact scanInv_step tasks now n _ ih

theorem scanInv_scan (tasks : List TCB) (now : Nat) :
    ScanInv tasks now MAX_TASKS (scan tasks now) :=
  scanInv_scanUpTo tasks now MAX_TASKS

/-! ## Consequences for the selected index -/

theorem scan_selected (tasks : List TCB) (now j : Nat)
    (h : (scan tasks now).nextTask = (j : Int)) :
    ∃ t, j < MAX_TASKS ∧ tasks[j]? = some t ∧ isDue now t = true ∧ t.priority < 255 ∧
      (∀ i u, i < MAX_TASKS → tasks[i]? = some u → isDue now u = true →
        t.priority ≤ u.priority) ∧
      (∀ i u, i < j → tasks[i]? = some u → isDue now u = true → t.priority < u.priority) := by
  rcases scanInv_scan tasks now with ⟨h1, _, _⟩ | ⟨k, t, hk, h1, h2, h3, _, h5, h6, h7⟩
  · rw [h1] at h; omega
  · rw [h1] at h
    have hkj : k = j := by omega
    subst hkj
    exact ⟨t, hk, h2, h3, h5, h6, h7⟩

theorem scan_none (tasks : List TCB) (now : Nat) (h : (scan tasks now).nextTask = -1) :
    ∀ i t, i < MAX_TASKS → tasks[i]? = some t → isDue now t = true → 255 ≤ t.priority := by
  rcases scanInv_scan tasks now with ⟨_, _, h3⟩ | ⟨k, t, _, h1, _⟩
  · exact h3
  · rw [h1] at h; omega

theorem scan_cases (tasks : List TCB) (now : Nat) :
    (scan tasks now).nextTask = -1 ∨
      ∃ (j : Nat) (t : TCB), (scan tasks now).nextTask = (j : Int) ∧ tasks[j]? = some t := by
  rcases scanInv_scan tasks now with ⟨h1, _, _⟩ | ⟨k, t, _, h1, h2, _⟩
  · exact Or.inl h1
  · exact Or.inr ⟨k, t, h1, h2⟩

theorem index_lt_of_length (tasks : List TCB) (i : Nat) (t : TCB)
    (hlen : tasks.length = MAX_TASKS) (h : tasks[i]? = some t) : i < MAX_TASKS := by
  have := (List.getElem?_eq_some.mp h).1
  omega

/-! ## The table update -/

theorem setLastRun_same (ts : List TCB) (j now : Nat) (t : TCB) (h : ts[j]? = some t) :
    (setLastRun ts j now)[j]? = some { t with lastRun := now } := by
  induction ts generalizing j with
  | nil => simp at h
  | cons c ts ih =>
    cases j with
    | zero =>
      simp only [List.getElem?_cons_zero, Option.some.injEq] at h
      subst h
      simp [setLastRun]
    | succ j =>
      simp only [List.getElem?_cons_succ] at h
      simp [setLastRun, ih j h]

theorem setLastRun_other (ts : List TCB) (j now i : Nat) (h : i ≠ j) :
    (setLastRun ts j now)[i]? = ts[i]? := by
  induction ts generalizing j i with
  | nil => rfl
  | cons c ts ih =>
    cases j with
    | zero =>
      cases i with
      | zero => exact absurd rfl h
      | succ i => simp [setLastRun]
    | succ j =>
      cases i with
      | zero => simp [setLastRun]
      | succ i =>
        have hij : i ≠ j := fun e => h (by rw [e])
        simp [setLastRun, ih j i hij]

/-! ## One pass -/

theorem scheduler_of_none (s : Sys) (now : Nat) (h : (scan s.tasks now).nextTask = -1) :
    scheduler s now = s := by
  simp [scheduler, h]

theorem scheduler_of_selected (s : Sys) (now j : Nat) (t : TCB)
    (h : (scan s.tasks now).nextTask = (j : Int)) (ht : s.tasks[j]? = some t) :
    scheduler s now =
      { tasks := setLastRun s.tasks j now, currentTask := (j : Int),
        trace := s.trace ++ dispatchEvents now t } := by
  have hne : ((j : Int) ≠ -1) := by omega
  have hset := setLastRun_same s.tasks j now t ht
  simp [scheduler, h, hne, prepare, announce, callTask, hset, dispatchEvents]

theorem prepare_of_selected (s : Sys) (now j : Nat) (t : TCB) (ht : s.tasks[j]? = some t) :
    prepare s now (j : Int) =
      { tasks := setLastRun s.tasks j now, currentTask := (j : Int),
        trace := s.trace ++
          [Event.printStr "[", Event.printNum now, Event.printStr "ms] Running: ",
           Event.printlnStr t.name] } := by
  have hset := setLastRun_same s.tasks j now t ht
  simp [prepare, announce, hset]

theorem isCandidate_iff (tasks : List TCB) (now i : Nat) :
    isCandidate tasks now i = true ↔ ∃ t, tasks[i]? = some t ∧ isDue now t = true := by
  unfold isCandidate
  cases h : tasks[i]? with
  | none => simp
  | some t => simp

theorem isDue_iff (now : Nat) (t : TCB) :
    isDue now t = true ↔ t.ready = true ∧ elapsed now t = true := by
  simp [isDue]

theorem scan_none_of_no_candidate (tasks : List TCB) (now : Nat)
    (h : ∀ i, i < MAX_TASKS → isCandidate tasks now i = false) :
    (scan tasks now).nextTask = -1 := by
  rcases scan_cases tasks now with h1 | ⟨j, t, hj, _⟩
  · exact h1
  · obtain ⟨u, hlt, hu, hdue, _⟩ := scan_selected tasks now j hj
    have hc : isCandidate tasks now j = true := (isCandidate_iff tasks now j).mpr ⟨u, hu, hdue⟩
    rw [h j hlt] at hc
    cases hc

/-- Selection does happen when some candidate has a priority below 255. -/
theorem scan_selects_of_candidate_lt_255 (tasks : List TCB) (now i : Nat) (t : TCB)
    (hi : i < MAX_TASKS) (ht : tasks[i]? = some t) (hdue : isDue now t = true)
    (hp : t.priority < 255) :
    ∃ (j : Nat) (tj : TCB), (scan tasks now).nextTask = (j : Int) ∧ tasks[j]? = some tj := by
  rcases scan_cases tasks now with h1 | h2
  · have := scan_none tasks now h1 i t hi ht hdue
    omega
  · exact h2

theorem callsOf_append (a b : List Event) : callsOf (a ++ b) = callsOf a ++ callsOf b := by
  induction a with
  | nil => rfl
  | cons e es ih =>
    cases e <;> simp [callsOf, ih]

theorem scheduler_keeps_other (s : Sys) (now i : Nat)
    (h : (scan s.tasks now).nextTask ≠ (i : Int)) :
    (scheduler s now).tasks[i]? = s.tasks[i]? := by
  rcases scan_cases s.tasks now with h1 | ⟨j, t, hj, ht⟩
  · rw [scheduler_of_none s now h1]
  · rw [scheduler_of_selected s now j t hj ht]
    have hij : i ≠ j := by
      intro e
      rw [hj, e] at h
      exact h rfl
    exact setLastRun_other s.tasks j now i hij

theorem sub32_of_le (a b : Nat) (hba : b ≤ a) (ha : a < ULONG_MOD) : sub32 a b = a - b := by
  simp only [sub32, ULONG_MOD, Nat.reducePow] at *
  omega

theorem sub32_add_mod (l d : Nat) (hd : d < ULONG_MOD) :
    sub32 ((l + d) % ULONG_MOD) l = d := by
  simp only [sub32, ULONG_MOD, Nat.reducePow] at *
  omega

/-! ## A task whose `lastRun` is `T` -/

theorem stamped_not_selected (tasks : List TCB) (i T now : Nat) (ti : TCB)
    (hst : tasks[i]? = some { ti with lastRun := T })
    (hle : T ≤ now) (hlt : now < T + ti.period) (hM : now < ULONG_MOD) :
    (scan tasks now).nextTask ≠ (i : Int) := by
  intro hsel
  obtain ⟨u, _, hu, hdue, _⟩ := scan_selected tasks now i hsel
  rw [hst] at hu
  cases hu
  have he := ((isDue_iff now _).mp hdue).2
  simp only [elapsed, decide_eq_true_eq] at he
  rw [sub32_of_le now T hle hM] at he
  omega

theorem stamped_candidate (tasks : List TCB) (i T now : Nat) (ti : TCB)
    (hst : tasks[i]? = some { ti with lastRun := T }) (hr : ti.ready = true)
    (hge : T + ti.period ≤ now) (hM : now < ULONG_MOD) :
    isCandidate tasks now i = true := by
  rw [isCandidate_iff]
  refine ⟨_, hst, ?_⟩
  rw [isDue_iff]
  refine ⟨hr, ?_⟩
  simp only [elapsed, decide_eq_true_eq]
  rw [sub32_of_le now T (by omega) hM]
  omega

theorem stamped_window (i T : Nat) (ti : TCB) (pre : List Nat) :
    ∀ s : Sys, s.tasks[i]? = some { ti with lastRun := T } →
      (∀ n, n ∈ pre → T ≤ n ∧ n < T + ti.period ∧ n < ULONG_MOD) →
      (runPasses s pre).tasks[i]? = some { ti with lastRun := T } := by
  induction pre with
  | nil => intro s hst _; exact hst
  | cons n rest ih =>
    intro s hst hpre
    obtain ⟨h1, h2, h3⟩ := hpre n (List.mem_cons_self n rest)
    have hns := stamped_not_selected s.tasks i T n ti hst h1 h2 h3
    have hkeep := scheduler_keeps_other s n i hns
    simp only [runPasses, List.foldl_cons]
    apply ih (scheduler s n)
    · rw [hkeep]; exact hst
    · intro m hm
      exact hpre m (List.mem_cons_of_mem n hm)

theorem stamped_notSelected (i T : Nat) (ti : TCB) (pre : List Nat) :
    ∀ s : Sys, s.tasks[i]? = some { ti with lastRun := T } →
      notSelectedDuring i s pre →
      (runPasses s pre).tasks[i]? = some { ti with lastRun := T } := by
  induction pre with
  | nil => intro s hst _; exact hst
  | cons n rest ih =>
    intro s hst hns
    have hkeep := scheduler_keeps_other s n i hns.1
    simp only [runPasses, List.foldl_cons]
    apply ih (scheduler s n)
    · rw [hkeep]; exact hst
    · exact hns.2

/-! ## Bounds on `lastRun` -/

theorem scheduler_bounded (s : Sys) (now b : Nat)
    (hb : ∀ (i : Nat) (t : TCB), s.tasks[i]? = some t → t.lastRun ≤ b) (hle : b ≤ now) :
    ∀ (i : Nat) (t : TCB), (scheduler s now).tasks[i]? = some t → t.lastRun ≤ now := by
  intro i t hi
  rcases scan_cases s.tasks now with h1 | ⟨j, tj, hj, htj⟩
  · rw [scheduler_of_none s now h1] at hi
    exact Nat.le_trans (hb i t hi) hle
  · rw [scheduler_of_selected s now j tj hj htj] at hi
    by_cases hij : i = j
    · subst hij
      have := setLastRun_same s.tasks i now tj htj
      simp only at hi
      rw [this] at hi
      cases hi
      exact Nat.le_refl _
    · have := setLastRun_other s.tasks j now i hij
      simp only at hi
      rw [this] at hi
      exact Nat.le_trans (hb i t hi) hle

theorem runPasses_bounded (pre : List Nat) :
    ∀ (s : Sys) (b : Nat),
      (∀ (i : Nat) (t : TCB), s.tasks[i]? = some t → t.lastRun ≤ b) →
      List.Pairwise (fun x y => x ≤ y) pre → (∀ n, n ∈ pre → b ≤ n) →
      ∀ now : Nat, (∀ n, n ∈ pre → n ≤ now) → b ≤ now →
      ∀ (i : Nat) (t : TCB), (runPasses s pre).tasks[i]? = some t → t.lastRun ≤ now := by
  induction pre with
  | nil =>
    intro s b hb _ _ now _ hle i t hi
    exact Nat.le_trans (hb i t hi) hle
  | cons n rest ih =>
    intro s b hb hp hge now hnow _ i t hi
    simp only [runPasses, List.foldl_cons] at hi
    rw [List.pairwise_cons] at hp
    exact ih (scheduler s n) n (scheduler_bounded s n b hb (hge n (List.mem_cons_self n rest)))
      hp.2 (fun m hm => hp.1 m hm) now (fun m hm => hnow m (List.mem_cons_of_mem n hm))
      (hnow n (List.mem_cons_self n rest)) i t hi

theorem setupSys_bounded :
    ∀ (i : Nat) (t : TCB), setupSys.tasks[i]? = some t → t.lastRun ≤ 0 := by
  intro i t hi
  have hm := List.getElem?_mem hi
  simp only [setupSys, setupTasks, List.mem_cons, List.mem_singleton, List.not_mem_nil,
    or_false] at hm
  rcases hm with h | h | h <;> subst h <;> exact Nat.le_refl _

/-! ## Properties of one pass -/

/-- C1, priority correctness: when a pass over a table of `MAX_TASKS` descriptors
selects task `j`, task `j` is itself a candidate and no candidate of the table
has a priority value strictly smaller than that of task `j`. -/
theorem priority_correct (tasks : List TCB) (now j : Nat)
    (hlen : tasks.length = MAX_TASKS) (hsel : (scan tasks now).nextTask = (j : Int)) :
    ∃ tj, tasks[j]? = some tj ∧ isCandidate tasks now j = true ∧
      ∀ i ti, tasks[i]? = some ti → isCandidate tasks now i = true →
        ¬ ti.priority < tj.priority := by
  obtain ⟨tj, _, hj, hdue, _, hmin, _⟩ := scan_selected tasks now j hsel
  refine ⟨tj, hj, (isCandidate_iff tasks now j).mpr ⟨tj, hj, hdue⟩, ?_⟩
  intro i ti hi hc
  obtain ⟨u, hu, hd⟩ := (isCandidate_iff tasks now i).mp hc
  rw [hi] at hu
  cases hu
  have := hmin i ti (index_lt_of_length tasks i ti hlen hi) hi hd
  omega

/-- The scenario of C1: at `now = 1000` tasks A and C are candidates, B is not,
and the pass selects A (index 0), whose priority no candidate undercuts. -/
theorem priority_correct_witness :
    scenarioAC.length = MAX_TASKS ∧ (scan scenarioAC 1000).nextTask = ((0 : Nat) : Int) ∧
    isCandidate scenarioAC 1000 0 = true ∧ isCandidate scenarioAC 1000 1 = false ∧
    isCandidate scenarioAC 1000 2 = true ∧
    ∃ tj, scenarioAC[0]? = some tj ∧ isCandidate scenarioAC 1000 0 = true ∧
      ∀ i ti, scenarioAC[i]? = some ti → isCandidate scenarioAC 1000 i = true →
        ¬ ti.priority < tj.priority :=
  ⟨rfl, by decide, by decide, by decide, by decide,
    priority_correct scenarioAC 1000 0 rfl (by decide)⟩

/-- C3, tie-break: when a pass over a table of `MAX_TASKS` descriptors selects
task `j`, no candidate at an index before `j` has the priority of task `j`, and
task `j` has the smallest priority among the candidates: it is the first, in
table order, of the candidates sharing the smallest priority. -/
theorem tie_break_first (tasks : List TCB) (now j : Nat)
    (hlen : tasks.length = MAX_TASKS) (hsel : (scan tasks now).nextTask = (j : Int)) :
    ∃ tj, tasks[j]? = some tj ∧ isCandidate tasks now j = true ∧
      (∀ i ti, i < j → tasks[i]? = some ti → isCandidate tasks now i = true →
        ti.priority ≠ tj.priority) ∧
      (∀ i ti, tasks[i]? = some ti → isCandidate tasks now i = true →
        tj.priority ≤ ti.priority) := by
  obtain ⟨tj, _, hj, hdue, _, hmin, hfirst⟩ := scan_selected tasks now j hsel
  refine ⟨tj, hj, (isCandidate_iff tasks now j).mpr ⟨tj, hj, hdue⟩, ?_, ?_⟩
  · intro i ti hij hi hc
    obtain ⟨u, hu, hd⟩ := (isCandidate_iff tasks now i).mp hc
    rw [hi] at hu
    cases hu
    have := hfirst i ti hij hi hd
    omega
  · intro i ti hi hc
    obtain ⟨u, hu, hd⟩ := (isCandidate_iff tasks now i).mp hc
    rw [hi] at hu
    cases hu
    exact hmin i ti (index_lt_of_length tasks i ti hlen hi) hi hd

/-- A tie at work: B (index 1) and C (index 2) are both candidates with
priority 1 at `now = 2000`, A is a candidate with priority 5; B is selected. -/
theorem tie_break_first_witness :
    scenarioTie.length = MAX_TASKS ∧ (scan scenarioTie 2000).nextTask = ((1 : Nat) : Int) ∧
    isCandidate scenarioTie 2000 2 = true ∧
    ∃ tj, scenarioTie[1]? = some tj ∧ isCandidate scenarioTie 2000 1 = true ∧
      (∀ i ti, i < 1 → scenarioTie[i]? = some ti → isCandidate scenarioTie 2000 i = true →
        ti.priority ≠ tj.priority) ∧
      (∀ i ti, scenarioTie[i]? = some ti → isCandidate scenarioTie 2000 i = true →
        tj.priority ≤ ti.priority) :=
  ⟨rfl, by decide, by decide, tie_break_first scenarioTie 2000 1 rfl (by decide)⟩

/-- C5, readiness gate: in a table of `MAX_TASKS` descriptors a task whose
`ready` flag is false is not selected, whatever its period, last run and
priority; and the task a pass selects is ready, has its period elapsed, and has
the smallest priority among the ready tasks whose period has elapsed. -/
theorem readiness_gate (tasks : List TCB) (now : Nat) (hlen : tasks.length = MAX_TASKS) :
    (∀ (i : Nat) (ti : TCB), tasks[i]? = some ti → ti.ready = false →
        (scan tasks now).nextTask ≠ (i : Int)) ∧
    (∀ j : Nat, (scan tasks now).nextTask = (j : Int) →
        ∃ tj, tasks[j]? = some tj ∧ tj.ready = true ∧ elapsed now tj = true ∧
          ∀ (i : Nat) (ti : TCB), tasks[i]? = some ti → ti.ready = true →
            elapsed now ti = true → tj.priority ≤ ti.priority) := by
  constructor
  · intro i ti hi hr hsel
    obtain ⟨t, _, ht, hdue, _⟩ := scan_selected tasks now i hsel
    rw [hi] at ht
    cases ht
    rw [isDue_iff, hr] at hdue
    exact absurd hdue.1 (by decide)
  · intro j hsel
    obtain ⟨tj, _, hj, hdue, _, hmin, _⟩ := scan_selected tasks now j hsel
    obtain ⟨hr, he⟩ := (isDue_iff now tj).mp hdue
    refine ⟨tj, hj, hr, he, ?_⟩
    intro i ti hi hri hei
    exact hmin i ti (index_lt_of_length tasks i ti hlen hi) hi ((isDue_iff now ti).mpr ⟨hri, hei⟩)

/-- The scenario of C5: A is disabled, its period has elapsed at `now = 1000`
and its priority 0 is the smallest; B is not due; the pass selects C (index 2). -/
theorem readiness_gate_witness :
    scenarioDisabledA.length = MAX_TASKS ∧
    (∃ tA, scenarioDisabledA[0]? = some tA ∧ tA.ready = false ∧ elapsed 1000 tA = true ∧
      tA.priority = 0) ∧
    isCandidate scenarioDisabledA 1000 1 = false ∧
    (scan scenarioDisabledA 1000).nextTask = ((2 : Nat) : Int) ∧
    (scan scenarioDisabledA 1000).nextTask ≠ ((0 : Nat) : Int) ∧
    ∃ tj, scenarioDisabledA[2]? = some tj ∧ tj.ready = true ∧ elapsed 1000 tj = true ∧
      ∀ (i : Nat) (ti : TCB), scenarioDisabledA[i]? = some ti → ti.ready = true →
        elapsed 1000 ti = true → tj.priority ≤ ti.priority :=
  ⟨rfl, ⟨_, rfl, rfl, by decide, rfl⟩, by decide, by decide,
    (readiness_gate scenarioDisabledA 1000 rfl).1 0 _ rfl rfl,
    (readiness_gate scenarioDisabledA 1000 rfl).2 2 (by decide)⟩

/-- C2, at a table the code can hold: task A is the only candidate at
`now = 200` and has priority 255; the pass selects nothing and changes nothing,
because the loop starts from `highestPriority = 255` and compares with `<`. -/
theorem priority_255_never_selected :
    scenarioPrio255.length = MAX_TASKS ∧
    isCandidate scenarioPrio255 200 0 = true ∧
    (scan scenarioPrio255 200).nextTask = -1 ∧
    scheduler { tasks := scenarioPrio255, currentTask := 0, trace := [] } 200 =
      { tasks := scenarioPrio255, currentTask := 0, trace := [] } :=
  ⟨rfl, by decide, by decide, by decide⟩

/-- C6 as stated fails: on the table of `setup()` a pass at `now = 0` finds no
task due (`0 - 0 = 0` is below every period), selects nothing and leaves the
state as `setup()` built it. -/
theorem setup_nothing_due_at_zero :
    isCandidate setupTasks 0 0 = false ∧ isCandidate setupTasks 0 1 = false ∧
    isCandidate setupTasks 0 2 = false ∧ (scan setupTasks 0).nextTask = -1 ∧
    (scan setupTasks 0).nextTask ≠ 0 ∧ scheduler setupSys 0 = setupSys ∧
    callsOf (scheduler setupSys 0).trace = [] :=
  ⟨by decide, by decide, by decide, by decide, by decide, by decide, by decide⟩

/-- C6 amended: on the table of `setup()` every pass at a time `now < 200`,
`now = 0` included, selects nothing and changes nothing; at `now = 200` task 0
is the only candidate, it is selected, its `lastRun` becomes 200 and tasks 1
and 2 are untouched. -/
theorem setup_first_dispatch (now : Nat) (hnow : now < 200) :
    scheduler setupSys now = setupSys ∧
    isCandidate setupTasks 200 0 = true ∧ isCandidate setupTasks 200 1 = false ∧
    isCandidate setupTasks 200 2 = false ∧
    (scan setupTasks 200).nextTask = 0 ∧
    scheduler setupSys 200 =
      { tasks :=
          [ { taskFunc := TaskFunc.taskUltrasonicLED, period := 200, lastRun := 200,
              priority := 0, ready := true, name := "Ultrasonic+LED" },
            { taskFunc := TaskFunc.taskDHT11, period := 2000, lastRun := 0,
              priority := 1, ready := true, name := "DHT11" },
            { taskFunc := TaskFunc.taskBlinkLED, period := 1000, lastRun := 0,
              priority := 2, ready := true, name := "BlinkLED" } ],
        currentTask := 0,
        trace :=
          [Event.printStr "[", Event.printNum 200, Event.printStr "ms] Running: ",
           Event.printlnStr "Ultrasonic+LED", Event.call TaskFunc.taskUltrasonicLED] } := by
  refine ⟨?_, by decide, by decide, by decide, by decide, by decide⟩
  apply scheduler_of_none
  apply scan_none_of_no_candidate
  intro i hi
  have hM : now < ULONG_MOD := by
    simp only [ULONG_MOD, Nat.reducePow]
    omega
  have hsub : sub32 now 0 = now := by
    rw [sub32_of_le now 0 (Nat.zero_le now) hM]
    rfl
  have h3 : i = 0 ∨ i = 1 ∨ i = 2 := by
    simp only [MAX_TASKS] at hi
    omega
  rcases h3 with h | h | h <;> subst h <;>
    simp [isCandidate, setupSys, setupTasks, isDue, elapsed, hsub] <;> omega

/-- The amended C6 at `now = 0` and the first dispatch at `now = 200`. -/
theorem setup_first_dispatch_witness :
    (0 : Nat) < 200 ∧ scheduler setupSys 0 = setupSys ∧
    (scan setupTasks 200).nextTask = 0 :=
  ⟨by decide, (setup_first_dispatch 0 (by decide)).1,
    (setup_first_dispatch 0 (by decide)).2.2.2.2.1⟩

/-- C8, idempotent no-op: when no task of the table is a candidate at `now`, a
pass returns the state it was given (table, `currentTask` and trace: no call,
no diagnostic output), and so does a second pass at the same `now`. -/
theorem noop_when_nothing_due (s : Sys) (now : Nat)
    (hnone : ∀ i, i < MAX_TASKS → isCandidate s.tasks now i = false) :
    scheduler s now = s ∧ scheduler (scheduler s now) now = s := by
  have h := scheduler_of_none s now (scan_none_of_no_candidate s.tasks now hnone)
  refine ⟨h, ?_⟩
  rw [h, h]

/-- No task of the `setup()` table is due at `now = 100`: two passes in a row
leave the state as it was. -/
theorem noop_when_nothing_due_witness :
    (∀ i, i < MAX_TASKS → isCandidate setupSys.tasks 100 i = false) ∧
    scheduler setupSys 100 = setupSys ∧ scheduler (scheduler setupSys 100) 100 = setupSys :=
  have h : ∀ i, i < MAX_TASKS → isCandidate setupSys.tasks 100 i = false := by
    intro i hi
    have h3 : i = 0 ∨ i = 1 ∨ i = 2 := by
      simp only [MAX_TASKS] at hi
      omega
    rcases h3 with h | h | h <;> subst h <;> decide
  ⟨h, noop_when_nothing_due setupSys 100 h⟩

/-! ## Properties of sequences of passes -/

/-- C4, period respect: let a pass at time `T` select task `i`. Its `lastRun`
becomes `T`. After any passes made at times inside `[T, T + period)`, a pass at
a time `now` inside `[T, T + period)` does not select task `i`. After any
passes that did not select task `i`, at every time `now` with
`T + period <= now` task `i` is a candidate. Times are `unsigned long` values. -/
theorem period_respect (s : Sys) (T i : Nat) (ti : TCB) (hti : s.tasks[i]? = some ti)
    (hsel : (scan s.tasks T).nextTask = (i : Int)) :
    (scheduler s T).tasks[i]? = some { ti with lastRun := T } ∧
    (∀ (pre : List Nat) (now : Nat),
      (∀ n, n ∈ pre → T ≤ n ∧ n < T + ti.period ∧ n < ULONG_MOD) →
      T ≤ now → now < T + ti.period → now < ULONG_MOD →
      (scan (runPasses (scheduler s T) pre).tasks now).nextTask ≠ (i : Int)) ∧
    (∀ (pre : List Nat) (now : Nat),
      notSelectedDuring i (scheduler s T) pre →
      T + ti.period ≤ now → now < ULONG_MOD →
      isCandidate (runPasses (scheduler s T) pre).tasks now i = true) := by
  have hst : (scheduler s T).tasks[i]? = some { ti with lastRun := T } := by
    rw [scheduler_of_selected s T i ti hsel hti]
    exact setLastRun_same s.tasks i T ti hti
  obtain ⟨u, _, hu, hdue, _⟩ := scan_selected s.tasks T i hsel
  rw [hti] at hu
  cases hu
  have hr : ti.ready = true := ((isDue_iff T ti).mp hdue).1
  refine ⟨hst, ?_, ?_⟩
  · intro pre now hpre hle hlt hM
    exact stamped_not_selected _ i T now ti
      (stamped_window i T ti pre (scheduler s T) hst hpre) hle hlt hM
  · intro pre now hns hge hM
    exact stamped_candidate _ i T now ti
      (stamped_notSelected i T ti pre (scheduler s T) hst hns) hr hge hM

/-- Task 0 of the `setup()` table (period 200) is selected at `T = 200`; after
passes at 250 and 300 it is not selected at 399 and is a candidate at 400. -/
theorem period_respect_witness :
    (scan setupSys.tasks 200).nextTask = ((0 : Nat) : Int) ∧
    (scan (runPasses (scheduler setupSys 200) [250, 300]).tasks 399).nextTask ≠
      ((0 : Nat) : Int) ∧
    notSelectedDuring 0 (scheduler setupSys 200) [250, 300] ∧
    isCandidate (runPasses (scheduler setupSys 200) [250, 300]).tasks 400 0 = true :=
  have hns : notSelectedDuring 0 (scheduler setupSys 200) [250, 300] :=
    ⟨by decide, by decide, trivial⟩
  ⟨by decide,
    (period_respect setupSys 200 0 _ rfl (by decide)).2.1 [250, 300] 399
      (by decide) (by decide) (by decide) (by decide),
    hns,
    (period_respect setupSys 200 0 _ rfl (by decide)).2.2 [250, 300] 400 hns
      (by decide) (by decide)⟩

/-- C9, `lastRun` never decreases: run passes from the state of `setup()` at
the non-decreasing times `pre`, then one more pass at `now`, not earlier than
any of them. For every task, `lastRun` after that pass is at least `lastRun`
before it and at most `now`; it differs only when the pass selected that task;
and when the pass selected it, `lastRun` is `now`, already so in the state in
which the task body is called, where no call has yet been added. -/
theorem lastRun_monotone (pre : List Nat) (now : Nat)
    (hmono : List.Pairwise (fun x y => x ≤ y) (pre ++ [now]))
    (i : Nat) (t : TCB) (hi : (runPasses setupSys pre).tasks[i]? = some t) :
    ∃ t2 : TCB, (scheduler (runPasses setupSys pre) now).tasks[i]? = some t2 ∧
      t.lastRun ≤ t2.lastRun ∧ t2.lastRun ≤ now ∧
      (t2.lastRun ≠ t.lastRun →
        (scan (runPasses setupSys pre).tasks now).nextTask = (i : Int)) ∧
      ((scan (runPasses setupSys pre).tasks now).nextTask = (i : Int) →
        t2.lastRun = now ∧
        (prepare (runPasses setupSys pre) now (i : Int)).tasks[i]? = some t2 ∧
        callsOf (prepare (runPasses setupSys pre) now (i : Int)).trace =
          callsOf (runPasses setupSys pre).trace ∧
        scheduler (runPasses setupSys pre) now =
          callTask (prepare (runPasses setupSys pre) now (i : Int)) i) := by
  rw [List.pairwise_append] at hmono
  obtain ⟨hp, _, hlast⟩ := hmono
  have hle : ∀ n, n ∈ pre → n ≤ now := fun n hn => hlast n hn now (List.mem_singleton.mpr rfl)
  have hb := runPasses_bounded pre setupSys 0 setupSys_bounded hp
    (fun n _ => Nat.zero_le n) now hle (Nat.zero_le now)
  generalize runPasses setupSys pre = s at hi hb
  have htb : t.lastRun ≤ now := hb i t hi
  rcases scan_cases s.tasks now with h1 | ⟨j, tj, hj, htj⟩
  · refine ⟨t, ?_, Nat.le_refl _, htb, fun h => absurd rfl h, ?_⟩
    · rw [scheduler_of_none s now h1]; exact hi
    · intro h
      rw [h1] at h
      omega
  · by_cases hij : i = j
    · subst hij
      rw [hi] at htj
      cases htj
      refine ⟨{ t with lastRun := now }, ?_, htb, Nat.le_refl _, fun _ => hj, fun _ => ?_⟩
      · rw [scheduler_of_selected s now i t hj hi]
        exact setLastRun_same s.tasks i now t hi
      · refine ⟨rfl, ?_, ?_, ?_⟩
        · rw [prepare_of_selected s now i t hi]
          exact setLastRun_same s.tasks i now t hi
        · rw [prepare_of_selected s now i t hi]
          simp [callsOf_append, callsOf]
        · simp [scheduler, hj]
    · refine ⟨t, ?_, Nat.le_refl _, htb, fun h => absurd rfl h, ?_⟩
      · rw [scheduler_of_selected s now j tj hj htj]
        simp only
        rw [setLastRun_other s.tasks j now i hij]
        exact hi
      · intro h
        rw [hj] at h
        exact absurd (by omega) hij

/-- From `setup()`, after passes at 0, 200 and 1000, task 0 has `lastRun`
1000; the pass at 1200 selects it and its `lastRun` becomes 1200. -/
theorem lastRun_monotone_witness :
    List.Pairwise (fun x y => x ≤ y) ([0, 200, 1000] ++ [1200]) ∧
    (∃ t : TCB, (runPasses setupSys [0, 200, 1000]).tasks[0]? = some t ∧ t.lastRun = 1000 ∧
      ∃ t2 : TCB, (scheduler (runPasses setupSys [0, 200, 1000]) 1200).tasks[0]? = some t2 ∧
        t.lastRun ≤ t2.lastRun ∧ t2.lastRun ≤ 1200) ∧
    (scan (runPasses setupSys [0, 200, 1000]).tasks 1200).nextTask = ((0 : Nat) : Int) :=
  ⟨by decide,
    ⟨_, rfl, rfl,
      match lastRun_monotone [0, 200, 1000] 1200 (by decide) 0 _ rfl with
      | ⟨t2, h1, h2, h3, _⟩ => ⟨t2, h1, h2, h3⟩⟩,
    by decide⟩

/-- C10, the due test across the wrap of the millisecond counter: for a task
with any `lastRun` and `period`, and a true elapsed time `d` below `2 ^ 32`,
at `now = (lastRun + d) mod 2 ^ 32` the period test of line 87 holds exactly
when `d >= period`. -/
theorem due_test_wraparound (t : TCB) (d : Nat) (hd : d < ULONG_MOD) :
    elapsed ((t.lastRun + d) % ULONG_MOD) t = true ↔ t.period ≤ d := by
  simp only [elapsed, decide_eq_true_eq]
  rw [sub32_add_mod t.lastRun d hd]

/-- A task of period 200 stamped at `2 ^ 32 - 100`: 200 ms later the counter
reads 100 and the test holds; 199 ms later it reads 99 and the test fails. -/
theorem due_test_wraparound_witness :
    (200 < ULONG_MOD) ∧ (scenarioWrap.lastRun + 200) % ULONG_MOD = 100 ∧
    (scenarioWrap.lastRun + 199) % ULONG_MOD = 99 ∧
    (elapsed ((scenarioWrap.lastRun + 200) % ULONG_MOD) scenarioWrap = true ↔
      scenarioWrap.period ≤ 200) ∧
    elapsed 100 scenarioWrap = true ∧ elapsed 99 scenarioWrap = false :=
  ⟨by decide, by decide, by decide, due_test_wraparound scenarioWrap 200 (by decide),
    by decide, by decide⟩

end RTOS
